import Mathlib

/-!
# Verification of CTDopts (CTDopts.py)

A shallow embedding of the CTDopts library in Lean 4, together with theorems
settling the specification claims. Pure functions of the source are translated
to Lean functions; the mutable `OrderedDict` state of `read_ini` is passed
explicitly as an association list; assertion failures become `Except.error`.
Python values that can be either the literal `True` or a string (the elements
of `ini_params` value lists) are modelled by the inductive type `PyVal`.
XML element trees are modelled by the inductive type `XmlTree` (an element
with a tag, an attribute association list and a list of children; text
content of elements is never inspected by the functions under verification
and is not modelled). Warnings raised through `warnings.warn` are returned as
structured values carrying exactly the data interpolated into the source's
format strings.
-/

set_option autoImplicit false

namespace CTDopts

/-- The four parameter types supported by the library
(`{int: 'int', float: 'float', str: 'string', bool: 'boolean'}`). -/
inductive PType where
  | int
  | float
  | str
  | boolean
deriving DecidableEq, Repr

/-- A Python value appearing in `ini_params` lists: the literal `True`
(registered for boolean items) or a string. -/
inductive PyVal where
  | ptrue
  | pstr (s : String)
deriving DecidableEq, Repr

/-- A warning issued through `warnings.warn`, carrying the data the source
interpolates into the message. -/
inductive Warn where
  /-- "Parameter %s value %s is below minimum %s" -/
  | belowMin (paramName : String) (value : Int) (bound : Int)
  /-- "Parameter %s value %s is above maximum %s" -/
  | aboveMax (paramName : String) (value : Int) (bound : Int)
  /-- "Parameter %s's file extension not in allowed list. Allowed: %s. Actual: %s" -/
  | badExtension (paramName : String) (allowed : List String) (filename : String)
deriving DecidableEq, Repr

/-! ## `_NumericRange` (CTDopts.py lines 21-43) -/

/-- `_NumericRange.argparse_type`'s inner `is_in_range` checker, for integer
parameters (`n_type = int`; the value has already been cast by `n_type`).
Returns the warnings issued and the value returned. -/
def is_in_range (param_name : String) (n_min n_max : Option Int) (value : Int) :
    List Warn × Int :=
  let w1 := match n_min with
    | some m => if value < m then [Warn.belowMin param_name value m] else []
    | none => []
  let w2 := match n_max with
    | some m => if value > m then [Warn.aboveMax param_name value m] else []
    | none => []
  (w1 ++ w2, value)

/-- `_NumericRange.ctd_range_string`. -/
def ctd_range_string (n_min n_max : Option Int) : String :=
  (match n_min with | some m => toString m | none => "") ++ ":" ++
  (match n_max with | some m => toString m | none => "")

/-! ## `_FileFormat` (CTDopts.py lines 46-66) -/

/-- The `for format in self.formats` loop of `legal_formats`: the first
format such that `filename.endswith('.' + format)` returns the filename with
no warning; if the loop falls through, the `else` clause warns (naming the
full format list) and returns the filename. -/
def legal_formats_loop (param_name : String) (all_formats : List String)
    (filename : String) : List String → List Warn × String
  | [] => ([Warn.badExtension param_name all_formats filename], filename)
  | format :: rest =>
    if filename.endsWith ("." ++ format) then ([], filename)
    else legal_formats_loop param_name all_formats filename rest

/-- `_FileFormat.argparse_type`'s inner `legal_formats` checker. -/
def legal_formats (param_name : String) (formats : List String)
    (filename : String) : List Warn × String :=
  legal_formats_loop param_name formats filename formats

/-- `_FileFormat.ctd_format_string`. -/
def ctd_format_string (formats : List String) : String :=
  String.intercalate "," (formats.map (fun format => "*." ++ format))

/-! ## Lineage naming (CTDopts.py lines 196-200 and 259-263)

An `ArgumentGroup`'s identity, as far as naming is concerned, is its name and
its chain of parents (`None` for the root group the `CTDopts` constructor
creates). -/

/-- The parent chain of an `ArgumentGroup`: its name and its optional parent. -/
inductive GroupChain where
  | mk (name : String) (parent : Option GroupChain)

/-- The group's name. -/
def GroupChain.name : GroupChain → String
  | .mk n _ => n

/-- The group's parent. -/
def GroupChain.parent : GroupChain → Option GroupChain
  | .mk _ p => p

/-- `ArgumentGroup.get_group_lineage`: `[]` when `parent is None`, otherwise
the parent's lineage with this group's name appended. -/
def get_group_lineage : GroupChain → List String
  | .mk _ none => []
  | .mk n (some p) => get_group_lineage p ++ [n]

/-- `ArgumentItem.param_commandline_name`: colon-join of the parent group's
lineage followed by the item's own name. -/
def param_commandline_name (parent : GroupChain) (name : String) : String :=
  String.intercalate ":" (get_group_lineage parent ++ [name])

/-- All group names on the chain from the root down to this group, the root
included (used to state the lineage claim: the flag name uses this list with
the root's own name removed). -/
def chain_names : GroupChain → List String
  | .mk n none => [n]
  | .mk n (some p) => chain_names p ++ [n]

/-! ## Values and `ArgumentItem` (CTDopts.py lines 97-208)

Scalar Python values a parameter can hold after type casting. Floats are not
given a dedicated constructor: none of the claims exercises float arithmetic,
and a float-typed item's value only ever flows through `str(...)`, which
`Value.vStr` covers. Defaults and call values are modelled as already cast to
the declared type (`map(self.type, ...)` and argparse's `type=` coercion are
identity on such values). -/

/-- A scalar Python value held by a parameter. -/
inductive Value where
  | vInt (n : Int)
  | vStr (s : String)
  | vBool (b : Bool)
deriving DecidableEq, Repr

/-- Python `str(...)` on a scalar `Value` (`str(True) = 'True'`). -/
def pyStr : Value → String
  | .vInt n => toString n
  | .vStr s => s
  | .vBool b => if b then "True" else "False"

/-- Python `repr(...)` on a scalar `Value` (string values are quoted). -/
def pyRepr : Value → String
  | .vInt n => toString n
  | .vStr s => "\x27" ++ s ++ "\x27"
  | .vBool b => if b then "True" else "False"

/-- A parameter's stored value: a scalar, or a Python list of scalars for
list-typed parameters. -/
inductive CallVal where
  | scalar (v : Value)
  | list (vs : List Value)
deriving DecidableEq, Repr

/-- Python `str(...)` on a `CallVal` (`str` of a list renders the reprs of
its elements between square brackets). -/
def pyStrCV : CallVal → String
  | .scalar v => pyStr v
  | .list vs => "[" ++ String.intercalate ", " (vs.map pyRepr) ++ "]"

/-- Python truthiness of an optional `CallVal` (`None`, `0`, `''`, `[]` and
`False` are falsy). -/
def pyTruthy : Option CallVal → Bool
  | none => false
  | some (.scalar (.vInt n)) => n != 0
  | some (.scalar (.vStr s)) => s != ""
  | some (.scalar (.vBool b)) => b
  | some (.list vs) => vs != []

/-- A restriction installed on an item: `_NumericRange(name, type, min, max)`
or `_FileFormat(name, formats)`. -/
inductive Restriction where
  | numericRange (param_name : String) (n_type : PType) (n_min n_max : Option Int)
  | fileFormat (param_name : String) (formats : List String)
deriving DecidableEq, Repr

/-- The keyword arguments `ArgumentItem.__init__` consumes. `none` models an
absent keyword. -/
structure ItemSpec where
  name : String
  ptype : PType := .str
  tags : List String := []
  required : Bool := false
  description : String := ""
  is_list : Bool := false
  default : Option CallVal := none
  choices : Option (List String) := none
  num_range : Option (Option Int × Option Int) := none
  file_formats : Option (List String) := none
deriving DecidableEq, Repr

/-- A constructed `ArgumentItem` (the attributes `__init__` leaves behind;
`call_value` is absent until `store_call_value` sets it). -/
structure Item where
  name : String
  ptype : PType
  tags : List String
  required : Bool
  description : String
  is_list : Bool
  default : Option CallVal
  choices : Option (List String)
  restrictions : Option Restriction
  call_value : Option CallVal := none
deriving DecidableEq, Repr

/-- `ArgumentItem.__init__`. Follows the source statement by statement: the
boolean block first asserts `is_list == False` then forces `required = False`
and `default = False`; then the required/default invariant is asserted; then
at most one restriction is installed, `num_range` taking precedence over
`file_formats`. An `assert` failure is `Except.error` with the assertion's
message data. -/
def ArgumentItem_init (s : ItemSpec) : Except String Item := do
  let required := s.required
  let default := s.default
  let (required, default) ←
    if s.ptype = PType.boolean then do
      if s.is_list then
        throw "Boolean flag can't be a list type"
      pure (false, some (CallVal.scalar (Value.vBool false)))
    else
      pure (required, default)
  if required then
    if default ≠ none then
      throw ("Required field `" ++ s.name ++ "` has default value")
  else
    if default = none then
      throw ("Optional field `" ++ s.name ++ "` has no default value")
  let restrictions : Option Restriction :=
    if let some (n_min, n_max) := s.num_range then
      some (Restriction.numericRange s.name s.ptype n_min n_max)
    else if let some formats := s.file_formats then
      some (Restriction.fileFormat s.name formats)
    else
      none
  return { name := s.name, ptype := s.ptype, tags := s.tags,
           required := required, description := s.description,
           is_list := s.is_list, default := default, choices := s.choices,
           restrictions := restrictions }

/-! ## XML element trees

`xml.etree.ElementTree` elements, as far as the source inspects them: a tag,
an attribute dictionary and a list of children. -/

/-- An XML element. -/
inductive XmlTree where
  | elem (tag : String) (attribs : List (String × String)) (children : List XmlTree)

/-- The element's tag. -/
def XmlTree.tag : XmlTree → String
  | .elem t _ _ => t

/-- The element's attribute dictionary. -/
def XmlTree.attribs : XmlTree → List (String × String)
  | .elem _ a _ => a

/-- The element's children. -/
def XmlTree.children : XmlTree → List XmlTree
  | .elem _ _ c => c

/-- `element.attrib[k]` (total model of the dictionary lookup; the documents
the theorems quantify over always carry the attributes the source reads). -/
def XmlTree.attr (e : XmlTree) (k : String) : String :=
  (e.attribs.lookup k).getD ""

/-- `element.find(tag)`: the first child with the given tag. -/
def XmlTree.findChild (e : XmlTree) (t : String) : Option XmlTree :=
  e.children.find? (fun c => c.tag == t)

/-! ## `ini_params` as an ordered dictionary -/

/-- `self.ini_params`: an `OrderedDict` from full parameter names to lists of
values, modelled as an association list in insertion order. -/
abbrev OD := List (String × List PyVal)

/-- The keys of the dictionary, in order. -/
def odKeys (od : OD) : List String := od.map Prod.fst

/-- `od[k] = v` on an `OrderedDict`: an existing key keeps its position and
gets the new value; a new key is appended. -/
def odSet (od : OD) (k : String) (v : List PyVal) : OD :=
  if (od.lookup k).isSome then
    od.map (fun kv => if kv.1 = k then (k, v) else kv)
  else
    od ++ [(k, v)]

/-! ## `CTDopts._register_parameter` (CTDopts.py lines 386-399) -/

mutual

/-- `CTDopts._register_parameter(element, base_name, is_root)`, with
`self.ini_params` passed explicitly. -/
def register_parameter : XmlTree → String → Bool → OD → OD
  | XmlTree.elem tag attribs children, base_name, is_root, ini =>
    let colon := if is_root then "" else ":"
    let full_name := base_name ++ colon ++ ((attribs.lookup "name").getD "")
    if tag = "ITEM" then
      if (attribs.lookup "type").getD "" = "boolean" then
        if (attribs.lookup "value").getD "" = "true" then
          odSet ini full_name [PyVal.ptrue]
        else ini
      else
        odSet ini full_name [PyVal.pstr ((attribs.lookup "value").getD "")]
    else if tag = "ITEMLIST" then
      odSet ini full_name (children.map (fun listitem => PyVal.pstr (listitem.attr "value")))
    else if tag = "NODE" then
      register_parameter_children children full_name ini
    else ini

/-- The `for child in element` loop of the `NODE` branch. -/
def register_parameter_children : List XmlTree → String → OD → OD
  | [], _, ini => ini
  | child :: rest, full_name, ini =>
    register_parameter_children rest full_name (register_parameter child full_name false ini)

end

/-- The `for child in parameters` loop of `read_ini`: each top-level child is
registered with base name `'-'` and `is_root=True`. -/
def register_top : List XmlTree → OD → OD
  | [], ini => ini
  | child :: rest, ini => register_top rest (register_parameter child "-" true ini)

/-! ## `CTDopts.read_ini` (CTDopts.py lines 401-431) -/

/-- The command-line synthesis loop at the end of `read_ini`: parameters with
an empty value list are skipped; otherwise the flag name is emitted, followed
by the values unless they are the boolean sentinel `[True]`. -/
def ini_command_line : OD → List PyVal
  | [] => []
  | (arg_name, values) :: rest =>
    (if values.length ≠ 0 then
      PyVal.pstr arg_name :: (if values ≠ [PyVal.ptrue] then values else [])
    else []) ++ ini_command_line rest

/-- `CTDopts.read_ini`, on an already-parsed document tree. Returns the
`ini_params` table alongside the synthesized command line (the source stores
the former on `self` and returns the latter); `none` models the exception
raised when the expected `PARAMETERS`/`NODE` nesting is missing. -/
def read_ini (root : XmlTree) : Option (OD × List PyVal) := do
  let param_root ← if root.tag = "PARAMETERS" then some root else root.findChild "PARAMETERS"
  let node1 ← param_root.findChild "NODE"
  let parameters ← node1.findChild "NODE"
  let ini_params := register_top parameters.children []
  some (ini_params, ini_command_line ini_params)

/-! ## Serialization: `xml_node` and `generate_ctd_tree`
(CTDopts.py lines 166-194, 231-239, 276-340) -/

/-- The `type` attribute written by `xml_node`:
`{int: 'int', float: 'float', str: 'string', bool: 'boolean'}[self.type]`. -/
def ptype_ctd_string : PType → String
  | .int => "int"
  | .float => "float"
  | .str => "string"
  | .boolean => "boolean"

/-- Python iteration over a `CallVal` (the `for d in value` loop of the
`ITEMLIST` branch of `xml_node`): a list yields its elements, a string yields
its characters. Iterating an int or bool raises `TypeError` in the source;
that case is unreachable under the well-typedness hypotheses of the theorems
(a list-typed item holds a `CallVal.list`) and is modelled as yielding no
elements. -/
def listIter : CallVal → List Value
  | .list vs => vs
  | .scalar (.vStr s) => s.toList.map (fun c => Value.vStr (String.singleton c))
  | .scalar _ => []

/-- `ArgumentItem.xml_node`. The attribute dictionary is built in source
order: `name`, then (for non-lists) `value` — `''` for a missing value,
`str(value)` otherwise, overridden to `'true'`/`'false'` by truthiness for
booleans — then `type`, `description`, comma-joined `tags`, and one of
`restrictions` (choices, or a numeric range) or `supported_formats`. A list
item becomes an `ITEMLIST` with one `LISTITEM` per element of its value. -/
def item_xml_node (it : Item) : XmlTree :=
  let value : Option CallVal := match it.call_value with
    | some v => some v
    | none => it.default
  let value_attrs : List (String × String) :=
    if it.is_list then []
    else [("value",
      if it.ptype = PType.boolean then (if pyTruthy value then "true" else "false")
      else (match value with | none => "" | some v => pyStrCV v))]
  let restr_attrs : List (String × String) :=
    match it.choices with
    | some cs => [("restrictions", String.intercalate "," cs)]
    | none =>
      match it.restrictions with
      | some (Restriction.numericRange _ _ n_min n_max) =>
          [("restrictions", ctd_range_string n_min n_max)]
      | some (Restriction.fileFormat _ formats) =>
          [("supported_formats", ctd_format_string formats)]
      | none => []
  let attribs := [("name", it.name)] ++ value_attrs ++
    [("type", ptype_ctd_string it.ptype), ("description", it.description),
     ("tags", String.intercalate "," it.tags)] ++ restr_attrs
  if it.is_list then
    XmlTree.elem "ITEMLIST" attribs
      (match value with
       | none => []
       | some v => (listIter v).map
           (fun d => XmlTree.elem "LISTITEM" [("value", pyStr d)] []))
  else
    XmlTree.elem "ITEM" attribs []

/-- The argument tree under the root group: items at the leaves, groups with
their children in insertion order. -/
inductive ATree where
  | item (it : Item)
  | group (name : String) (description : String) (children : List ATree)

mutual

/-- `xml_node` on a tree node (`ArgumentItem.xml_node` for leaves,
`ArgumentGroup.xml_node` for groups: a `NODE` element with `name` and
`description` attributes and the children's nodes appended in order). -/
def atree_xml_node : ATree → XmlTree
  | .item it => item_xml_node it
  | .group n d cs => XmlTree.elem "NODE" [("name", n), ("description", d)] (atree_xml_nodes cs)

/-- The `for arg in self.arguments.itervalues()` loop of
`ArgumentGroup.xml_node`. -/
def atree_xml_nodes : List ATree → List XmlTree
  | [] => []
  | t :: ts => atree_xml_node t :: atree_xml_nodes ts

end

/-- `CTDopts.generate_ctd_tree` with `with_logging=False`: the `tool` root
with its fixed attributes plus optional `docurl`/`category`, the optional
`manual`/`description`/`executableName`/`executablePath` child elements (text
content is never read back and is not modelled), and the `PARAMETERS` element
wrapping the top `NODE` (tool name), which holds the synthesized `version`
item followed by the root group's node (`main_node` is
`ArgumentGroup('1', None, 'Instance "1" section for %s')`). -/
def generate_ctd_tree (name version : String)
    (optional_attribs : List (String × String)) (main_children : List ATree) : XmlTree :=
  let tool_attribs :=
    [("version", version), ("name", name),
     ("xmlns:xsi", "http://www.w3.org/2001/XMLSchema-instance"),
     ("xsi:schemaLocation", "https://github.com/genericworkflownodes/CTDopts/raw/master/schemas/CTD_0_3.xsd")] ++
    (["docurl", "category"].filterMap
      (fun oo => (optional_attribs.lookup oo).map (fun v => (oo, v))))
  let opt_children :=
    (["manual", "description", "executableName", "executablePath"].filter
      (fun oo => (optional_attribs.lookup oo).isSome)).map
      (fun oo => XmlTree.elem oo [] [])
  let version_item := XmlTree.elem "ITEM"
    [("name", "version"), ("value", version), ("type", "string"),
     ("description", "Version of the tool that generated this parameters file."),
     ("tags", "advanced")] []
  let args_top_node := XmlTree.elem "NODE"
    [("name", "1"), ("description", "Instance \"1\" section for " ++ name)]
    (atree_xml_nodes main_children)
  let top_node := XmlTree.elem "NODE"
    [("name", name), ("description", (optional_attribs.lookup "description").getD "")]
    [version_item, args_top_node]
  let params := XmlTree.elem "PARAMETERS"
    [("version", "1.6.2"),
     ("xmlns:xsi", "http://www.w3.org/2001/XMLSchema-instance"),
     ("xsi:noNamespaceSchemaLocation", "https://github.com/genericworkflownodes/CTDopts/raw/master/schemas/Param_1_6_2.xsd")]
    [top_node]
  XmlTree.elem "tool" tool_attribs (opt_children ++ [params])

/-! ## `CTDopts.parse_args` (CTDopts.py lines 433-499) -/

/-- The table of values the external parser produces (the `vars(parsed_args)`
dictionary, with flag tokens as keys). -/
abbrev ParsedArgs := List (String × List String)

/-- Replace the value stored for a key (insertion order kept), appending the
key if absent. -/
def paSet (pa : ParsedArgs) (k : String) (v : List String) : ParsedArgs :=
  if (pa.lookup k).isSome then
    pa.map (fun kv => if kv.1 = k then (k, v) else kv)
  else
    pa ++ [(k, v)]

/-- Append one value token to the values stored for a key. -/
def paAppend (pa : ParsedArgs) (k : String) (v : String) : ParsedArgs :=
  pa.map (fun kv => if kv.1 = k then (k, kv.2 ++ [v]) else kv)

/-- Model of the external token parser (`argparse`): scan the token list;
each occurrence of a recognized flag token starts collecting the value tokens
that follow it, and a later occurrence of the same flag resets (overrides)
the values stored by an earlier one. `flags` is the set of recognized flag
tokens (`'-' + param_commandline_name` for every declared item). -/
def parse_tokens_go (flags : List String) :
    List PyVal → Option String → ParsedArgs → ParsedArgs
  | [], _, acc => acc
  | PyVal.pstr t :: rest, current, acc =>
    if t ∈ flags then
      parse_tokens_go flags rest (some t) (paSet acc t [])
    else
      match current with
      | some f => parse_tokens_go flags rest current (paAppend acc f t)
      | none => parse_tokens_go flags rest none acc
  | PyVal.ptrue :: rest, current, acc => parse_tokens_go flags rest current acc

/-- Model of the external token parser on a whole token list. -/
def parse_tokens (flags : List String) (tokens : List PyVal) : ParsedArgs :=
  parse_tokens_go flags tokens none []

/-- The non-exiting branch of `CTDopts.parse_args`: the final token list is
the `read_ini` output for `--input_ctd` (empty when the directive is absent)
with the remaining literal command-line tokens appended, and that merged list
is fed to the external parser (modelled by `parse_tokens`). `none` models the
exception `read_ini` raises on a malformed document. -/
def parse_args (flags : List String) (input_ctd : Option XmlTree)
    (rest : List PyVal) : Option ParsedArgs :=
  match input_ctd with
  | some doc => (read_ini doc).map (fun r => parse_tokens flags (r.2 ++ rest))
  | none => some (parse_tokens flags rest)

/-! ## `CTDopts.finalize_log` (CTDopts.py lines 342-377) -/

/-- The state `finalize_log` touches: the sentinel attribute
`already_finalized` (modelled as a flag, `false` for "absent"), the log
node's attributes, its appended child elements, and the number of times
`write_ctd` has written the descriptor file. -/
structure LogState where
  already_finalized : Bool := false
  executionTimeStop : Option String := none
  executionStatus : Option String := none
  executionErrors : List String := []
  executionMessage : List String := []
  ctd_writes : Nat := 0
deriving DecidableEq, Repr

/-- `CTDopts.finalize_log(stdout, stderr, exit_status)`: returns immediately
when the sentinel is set; otherwise stamps the stop time, optionally the exit
status, appends the captured stream texts as child elements, writes the
descriptor file and sets the sentinel. `now` is the wall-clock timestamp
taken during the call; `stdout`/`stderr` are the stream texts after the
`StringIO` extraction. -/
def finalize_log (now stdout stderr : String) (exit_status : Option String)
    (s : LogState) : LogState :=
  if s.already_finalized then s
  else
    { already_finalized := true,
      executionTimeStop := some now,
      executionStatus := match exit_status with
        | some e => some e
        | none => s.executionStatus,
      executionErrors := s.executionErrors ++ [stderr],
      executionMessage := s.executionMessage ++ [stdout],
      ctd_writes := s.ctd_writes + 1 }

/-! ## Keys contributed by `_register_parameter`

`reg_keys` mirrors the traversal of `register_parameter` and lists, in
registration order, the full names whose entries the call writes (a boolean
item whose `value` attribute is not `'true'` writes none). It is used to
state the freshness hypotheses of the accumulator lemmas and the
name-uniqueness hypotheses of the round-trip claims. -/

mutual

/-- The full names `register_parameter` registers for one element. -/
def reg_keys : XmlTree → String → Bool → List String
  | XmlTree.elem tag attribs children, base_name, is_root =>
    let colon := if is_root then "" else ":"
    let full_name := base_name ++ colon ++ ((attribs.lookup "name").getD "")
    if tag = "ITEM" then
      if (attribs.lookup "type").getD "" = "boolean" then
        if (attribs.lookup "value").getD "" = "true" then [full_name] else []
      else [full_name]
    else if tag = "ITEMLIST" then [full_name]
    else if tag = "NODE" then reg_keys_children children full_name
    else []

/-- The full names registered for a `NODE`'s children. -/
def reg_keys_children : List XmlTree → String → List String
  | [], _ => []
  | c :: rest, full_name => reg_keys c full_name false ++ reg_keys_children rest full_name

end

/-- The full names registered by the top-level loop of `read_ini`. -/
def reg_keys_top : List XmlTree → List String
  | [] => []
  | c :: rest => reg_keys c "-" true ++ reg_keys_top rest

/-- The full (lineage) name `register_parameter` builds for a child named `n`
reached from `base` (`'-'` with no separator at the root, colon-separated
below). -/
def full_lineage_name (base : String) (is_root : Bool) (n : String) : String :=
  base ++ (if is_root then "" else ":") ++ n

/-! ## Parameter-value documents (the family claim C8 quantifies over)

A `VTree` is the semantic content of a well-formed parameter-value document:
non-boolean scalar items, boolean items (whose stored value is an arbitrary
string; the codec only recognizes the literal `'true'`), list items, and
groups. `vtree_xml` renders it as the corresponding XML element. -/

/-- A node of a parameter-value document. -/
inductive VTree where
  | scalarItem (name : String) (ty : String) (value : String)
  | boolItem (name : String) (value : String)
  | listItem (name : String) (values : List String)
  | group (name : String) (children : List VTree)

mutual

/-- The XML element a `VTree` node stands for. -/
def vtree_xml : VTree → XmlTree
  | .scalarItem n ty v => XmlTree.elem "ITEM" [("name", n), ("value", v), ("type", ty)] []
  | .boolItem n v => XmlTree.elem "ITEM" [("name", n), ("value", v), ("type", "boolean")] []
  | .listItem n vs => XmlTree.elem "ITEMLIST" [("name", n)]
      (vs.map (fun v => XmlTree.elem "LISTITEM" [("value", v)] []))
  | .group n cs => XmlTree.elem "NODE" [("name", n)] (vtree_xml_list cs)

/-- `vtree_xml` over a list of children. -/
def vtree_xml_list : List VTree → List XmlTree
  | [] => []
  | t :: ts => vtree_xml t :: vtree_xml_list ts

end

mutual

/-- Well-formedness of a value document: a non-boolean scalar item does not
carry the type tag `'boolean'`. -/
def vtree_wf : VTree → Bool
  | .scalarItem _ ty _ => ty != "boolean"
  | .boolItem _ _ => true
  | .listItem _ _ => true
  | .group _ cs => vtree_wf_list cs

/-- `vtree_wf` over a list of children. -/
def vtree_wf_list : List VTree → Bool
  | [] => true
  | t :: ts => vtree_wf t && vtree_wf_list ts

end

mutual

/-- The flat table the specification describes for `load`: each leaf keyed by
its reconstructed lineage name; a boolean item contributes an entry only when
its stored value is the string `'true'`; a list item contributes the full
ordered sequence of its element values; a scalar item contributes a
single-element sequence. Stated from the claim's words, to be compared with
the table `register_parameter` builds. -/
def load_spec_table (base : String) (is_root : Bool) : VTree → OD
  | .scalarItem n _ v => [(full_lineage_name base is_root n, [PyVal.pstr v])]
  | .boolItem n v =>
    if v = "true" then [(full_lineage_name base is_root n, [PyVal.ptrue])] else []
  | .listItem n vs => [(full_lineage_name base is_root n, vs.map PyVal.pstr)]
  | .group n cs => load_spec_table_list (full_lineage_name base is_root n) cs

/-- `load_spec_table` over a list of children. -/
def load_spec_table_list (base : String) : List VTree → OD
  | [] => []
  | t :: ts => load_spec_table base false t ++ load_spec_table_list base ts

end

/-- `load_spec_table` for the top-level children of the value tree, as the
top-level loop of `read_ini` visits them. -/
def load_spec_table_top : List VTree → OD
  | [] => []
  | t :: ts => load_spec_table "-" true t ++ load_spec_table_top ts

/-! ## The round-trip table (claim C1)

`item_value_entry` is the flat-table rendering of an item's stored call
value, as the specification's round-trip property describes it: a boolean
contributes an entry iff its value is true, a list contributes its elements
in order, a scalar contributes a single element; values appear in their
string form, as the command-line surface carries them. -/

/-- An item's call value is shaped as declared: a list item holds a Python
list (and booleans are never list-typed), a scalar item holds a scalar, and a
boolean item holds a `bool`. -/
def item_round_trip_ok (it : Item) : Bool :=
  match it.is_list, it.call_value with
  | true, some (CallVal.list _) => it.ptype != PType.boolean
  | false, some (CallVal.scalar v) =>
    match it.ptype, v with
    | PType.boolean, Value.vBool _ => true
    | PType.boolean, _ => false
    | _, _ => true
  | _, _ => false

/-- The flat-table entry for one item's call value. -/
def item_value_entry (full : String) (it : Item) : OD :=
  match it.call_value with
  | some (CallVal.scalar (Value.vBool b)) =>
    if it.ptype = PType.boolean then
      (if b then [(full, [PyVal.ptrue])] else [])
    else [(full, [PyVal.pstr (pyStr (Value.vBool b))])]
  | some (CallVal.scalar v) => [(full, [PyVal.pstr (pyStr v)])]
  | some (CallVal.list vs) => [(full, vs.map (fun v => PyVal.pstr (pyStr v)))]
  | none => []

mutual

/-- The call-value table of a declared tree node. -/
def call_values_table (base : String) (is_root : Bool) : ATree → OD
  | .item it => item_value_entry (full_lineage_name base is_root it.name) it
  | .group n _ cs => call_values_table_list (full_lineage_name base is_root n) cs

/-- `call_values_table` over a list of children. -/
def call_values_table_list (base : String) : List ATree → OD
  | [] => []
  | t :: ts => call_values_table base false t ++ call_values_table_list base ts

end

/-- `call_values_table` for the root group's children. -/
def call_values_table_top : List ATree → OD
  | [] => []
  | t :: ts => call_values_table "-" true t ++ call_values_table_top ts

mutual

/-- Every item of the tree has a well-shaped call value. -/
def atree_ok : ATree → Bool
  | .item it => item_round_trip_ok it
  | .group _ _ cs => atree_ok_list cs

/-- `atree_ok` over a list of children. -/
def atree_ok_list : List ATree → Bool
  | [] => true
  | t :: ts => atree_ok t && atree_ok_list ts

end

/-! ## Concrete examples used by the witnesses -/

/-- Value trees for the concrete load example: a scalar, a true and a false
boolean, a list, and a nested group. -/
def c8_example_trees : List VTree :=
  [VTree.scalarItem "p" "int" "5", VTree.boolItem "b" "true",
   VTree.boolItem "c" "false", VTree.listItem "xs" ["a", "b"],
   VTree.group "g" [VTree.scalarItem "q" "string" "z"]]

/-- The synthesized version item of the concrete example document. -/
def c8_example_version_item : XmlTree :=
  XmlTree.elem "ITEM" [("name", "version"), ("value", "1.0"), ("type", "string")] []

/-- The concrete example document with `PARAMETERS` as the root. -/
def c8_example_doc : XmlTree :=
  XmlTree.elem "PARAMETERS" []
    [XmlTree.elem "NODE" [("name", "tool")]
      ([c8_example_version_item] ++
        [XmlTree.elem "NODE" [("name", "1")] (vtree_xml_list c8_example_trees)])]

/-- The concrete example document nested inside a tool-metadata wrapper. -/
def c8_example_wrapped : XmlTree :=
  XmlTree.elem "tool" [("name", "t")]
    ([XmlTree.elem "description" [] []] ++ c8_example_doc :: [])

/-- A concrete declared tree with call values: an int, a true and a false
boolean, a string list, and a nested group holding a string item. -/
def c1_example_trees : List ATree :=
  [ATree.item
    { name := "p", ptype := PType.int, tags := [], required := false,
      description := "", is_list := false,
      default := some (CallVal.scalar (Value.vInt 0)), choices := none,
      restrictions := none, call_value := some (CallVal.scalar (Value.vInt 5)) },
   ATree.item
    { name := "b", ptype := PType.boolean, tags := [], required := false,
      description := "", is_list := false,
      default := some (CallVal.scalar (Value.vBool false)), choices := none,
      restrictions := none, call_value := some (CallVal.scalar (Value.vBool true)) },
   ATree.item
    { name := "c", ptype := PType.boolean, tags := [], required := false,
      description := "", is_list := false,
      default := some (CallVal.scalar (Value.vBool false)), choices := none,
      restrictions := none, call_value := some (CallVal.scalar (Value.vBool false)) },
   ATree.item
    { name := "xs", ptype := PType.str, tags := [], required := true,
      description := "", is_list := true, default := none, choices := none,
      restrictions := none,
      call_value := some (CallVal.list [Value.vStr "u", Value.vStr "v"]) },
   ATree.group "g" ""
    [ATree.item
      { name := "q", ptype := PType.str, tags := [], required := false,
        description := "", is_list := false,
        default := some (CallVal.scalar (Value.vStr "")), choices := none,
        restrictions := none, call_value := some (CallVal.scalar (Value.vStr "z")) }]]

/-- A concrete loaded document assigning parameter `p = 1`. -/
def c2_example_doc : XmlTree :=
  XmlTree.elem "PARAMETERS" []
    [XmlTree.elem "NODE" [("name", "tool")]
      [XmlTree.elem "NODE" [("name", "1")]
        [XmlTree.elem "ITEM" [("name", "p"), ("value", "1"), ("type", "int")] []]]]

/-! # Theorems -/

/-! ## Claim C4: numeric range advisory -/

/-- C4: the checker produced by a numeric-range restriction with bounds
`(min, max)`, applied to a value outside `[min, max]`, returns the value
unchanged, issues at least one warning, every warning names the parameter,
the value and the violated bound, and when only the lower bound is violated
the warning list is exactly the single below-minimum warning naming the
parameter, the value and that bound. -/
theorem claim_C4 (name : String) (n_min n_max v : Int)
    (h : v < n_min ∨ n_max < v) :
    (is_in_range name (some n_min) (some n_max) v).2 = v ∧
    (is_in_range name (some n_min) (some n_max) v).1 ≠ [] ∧
    (∀ w ∈ (is_in_range name (some n_min) (some n_max) v).1,
      w = Warn.belowMin name v n_min ∨ w = Warn.aboveMax name v n_max) ∧
    (v < n_min → v ≤ n_max →
      (is_in_range name (some n_min) (some n_max) v).1 = [Warn.belowMin name v n_min]) := by
  refine ⟨rfl, ?_, ?_, ?_⟩
  · rcases h with h | h
    · simp [is_in_range, if_pos h]
    · simp only [is_in_range, if_pos h]
      intro hc
      exact absurd hc (by simp)
  · intro w hw
    simp only [is_in_range, List.mem_append] at hw
    rcases hw with hw | hw
    · left
      rcases lt_or_le v n_min with h1 | h1
      · simpa [if_pos h1] using hw
      · simp [if_neg (not_lt.mpr h1)] at hw
    · right
      rcases lt_or_le n_max v with h2 | h2
      · simpa [if_pos h2] using hw
      · simp [if_neg (not_lt.mpr h2)] at hw
  · intro h1 h2
    simp [is_in_range, if_pos h1, if_neg (not_lt.mpr h2)]

/-- C4 witness: range `(0, 10)`, input `-5` returns `-5` and emits exactly
one warning, the below-minimum warning naming the parameter, `-5` and `0`. -/
theorem claim_C4_witness :
    (is_in_range "p" (some 0) (some 10) (-5)).1 = [Warn.belowMin "p" (-5) 0] ∧
    (is_in_range "p" (some 0) (some 10) (-5)).2 = -5 := by
  have h := claim_C4 "p" 0 10 (-5) (Or.inl (by norm_num))
  exact ⟨h.2.2.2 (by norm_num) (by norm_num), h.1⟩

/-! ## Claim C5: file-extension advisory -/

/-- The loop underlying `legal_formats`: it returns the filename unchanged,
accepts (no warning) exactly when a candidate extension matches as a literal
dotted suffix, and otherwise issues exactly the one extension warning. -/
theorem legal_formats_loop_spec (param_name : String) (all_formats : List String)
    (filename : String) (formats : List String) :
    (legal_formats_loop param_name all_formats filename formats).2 = filename ∧
    ((legal_formats_loop param_name all_formats filename formats).1 = [] ↔
      formats.any (fun f => filename.endsWith ("." ++ f)) = true) ∧
    ((legal_formats_loop param_name all_formats filename formats).1 = [] ∨
      (legal_formats_loop param_name all_formats filename formats).1 =
        [Warn.badExtension param_name all_formats filename]) := by
  induction formats with
  | nil => simp [legal_formats_loop]
  | cons f rest ih =>
    by_cases hf : filename.endsWith ("." ++ f)
    · simp [legal_formats_loop, hf]
    · simpa [legal_formats_loop, hf] using ih

/-- C5: the checker produced by a file-extension allow-list returns every
filename unchanged; it accepts without warning exactly when the filename ends
with `'.'` followed by one of the allowed extensions (a literal,
case-sensitive trailing-substring test, so multi-part extensions match); and
otherwise it issues exactly one warning. -/
theorem claim_C5 (param_name : String) (formats : List String) (filename : String) :
    (legal_formats param_name formats filename).2 = filename ∧
    ((legal_formats param_name formats filename).1 = [] ↔
      formats.any (fun f => filename.endsWith ("." ++ f)) = true) ∧
    ((legal_formats param_name formats filename).1 = [] ∨
      (legal_formats param_name formats filename).1 =
        [Warn.badExtension param_name formats filename]) :=
  legal_formats_loop_spec param_name formats filename formats

/-! ## Claim C6: lineage naming -/

/-- A group's chain of names is never empty (it ends with the group's own
name). -/
theorem chain_names_ne_nil : ∀ g : GroupChain, chain_names g ≠ []
  | .mk _ none => by simp [chain_names]
  | .mk n (some p) => by simp [chain_names]

/-- `get_group_lineage` is the chain of names from the root down to the
group, with the root's own name removed. -/
theorem get_group_lineage_eq : ∀ g : GroupChain, get_group_lineage g = (chain_names g).drop 1
  | .mk _ none => by simp [get_group_lineage, chain_names]
  | .mk n (some p) => by
    rw [get_group_lineage, chain_names, get_group_lineage_eq p,
      List.drop_append_of_le_length]
    have := chain_names_ne_nil p
    exact Nat.one_le_iff_ne_zero.mpr (by simpa using this)

/-- C6: an item's command-line flag name is the colon-join of its ancestor
group names from the root (exclusive: the root group's own name never
appears) down to its parent, followed by the item's own name; an item whose
parent is the root group is named by its own name alone. -/
theorem claim_C6 (parent : GroupChain) (name : String) :
    param_commandline_name parent name =
      String.intercalate ":" ((chain_names parent).drop 1 ++ [name]) ∧
    (parent.parent = none → param_commandline_name parent name = name) := by
  constructor
  · rw [param_commandline_name, get_group_lineage_eq]
  · intro h
    match parent, h with
    | .mk n none, _ =>
      simp [param_commandline_name, get_group_lineage, String.intercalate,
        String.intercalate.go]

/-- C6 witness: an item `x` under `root > g1 > g2` is flagged `g1:g2:x`, and
an item directly under the root is flagged by its own name. -/
theorem claim_C6_witness :
    param_commandline_name
      (GroupChain.mk "g2" (some (GroupChain.mk "g1" (some (GroupChain.mk "1" none))))) "x" =
      String.intercalate ":"
        ((chain_names (GroupChain.mk "g2" (some (GroupChain.mk "g1" (some (GroupChain.mk "1" none)))))).drop 1 ++ ["x"]) ∧
    param_commandline_name (GroupChain.mk "1" none) "y" = "y" :=
  ⟨(claim_C6 (GroupChain.mk "g2" (some (GroupChain.mk "g1" (some (GroupChain.mk "1" none))))) "x").1,
   (claim_C6 (GroupChain.mk "1" none) "y").2 rfl⟩

/-! ## Claim C9: finalize idempotence -/

/-- C9: a second call to `finalize_log`, with any arguments, returns the
state of the first call unchanged: the log record is not modified and the
descriptor file is not written again. -/
theorem claim_C9 (now1 out1 err1 : String) (st1 : Option String)
    (now2 out2 err2 : String) (st2 : Option String) (s : LogState) :
    finalize_log now2 out2 err2 st2 (finalize_log now1 out1 err1 st1 s) =
      finalize_log now1 out1 err1 st1 s := by
  by_cases h : s.already_finalized <;> simp [finalize_log, h]

/-! ## Claim C7: token synthesis -/

/-- C7: the command-line synthesis of `read_ini` distributes over
concatenation of the table; a parameter with an empty recorded value sequence
is omitted entirely; a boolean recorded as the sentinel `[True]` emits the
flag-name token only; and a parameter with a non-empty, non-sentinel value
sequence emits the flag-name token followed by each value token in order. -/
theorem claim_C7 :
    (∀ od1 od2 : OD, ini_command_line (od1 ++ od2) =
      ini_command_line od1 ++ ini_command_line od2) ∧
    (∀ n : String, ini_command_line [(n, [])] = []) ∧
    (∀ n : String, ini_command_line [(n, [PyVal.ptrue])] = [PyVal.pstr n]) ∧
    (∀ (n : String) (vs : List PyVal), vs ≠ [] → vs ≠ [PyVal.ptrue] →
      ini_command_line [(n, vs)] = PyVal.pstr n :: vs) := by
  refine ⟨?_, ?_, ?_, ?_⟩
  · intro od1 od2
    induction od1 with
    | nil => simp [ini_command_line]
    | cons kv rest ih => simp [ini_command_line, ih]
  · intro n
    simp [ini_command_line]
  · intro n
    simp [ini_command_line]
  · intro n vs h1 h2
    simp [ini_command_line, h1, h2]

/-- C7 witness: a table holding a two-value list, an empty list and a boolean
sentinel synthesizes the expected token list. -/
theorem claim_C7_witness :
    ini_command_line
      [("-a", [PyVal.pstr "1", PyVal.pstr "2"]), ("-b", []), ("-c", [PyVal.ptrue])] =
      [PyVal.pstr "-a", PyVal.pstr "1", PyVal.pstr "2", PyVal.pstr "-c"] := by
  rw [show ([("-a", [PyVal.pstr "1", PyVal.pstr "2"]), ("-b", []), ("-c", [PyVal.ptrue])] : OD) =
      [("-a", [PyVal.pstr "1", PyVal.pstr "2"])] ++ ([("-b", [])] ++ [("-c", [PyVal.ptrue])]) from rfl,
    claim_C7.1, claim_C7.1, claim_C7.2.2.2 "-a" _ (by decide) (by decide),
    claim_C7.2.1, claim_C7.2.2.1]
  rfl

/-! ## Claim C3: declaration-time failures (corrected)

The claim lists "a boolean parameter declared as required" among the
declarations that abort construction. In the source, the boolean block only
asserts `is_list == False` and then silently forces `required = False` and
`default = False`, so a boolean declared required (with or without a default)
constructs successfully. -/

/-- C3 counterexample: a boolean parameter declared as required constructs
successfully (the claim, as stated, says this declaration aborts). -/
theorem claim_C3_counterexample :
    ArgumentItem_init { name := "b", ptype := PType.boolean, required := true } =
      Except.ok
        { name := "b", ptype := PType.boolean, tags := [], required := false,
          description := "", is_list := false,
          default := some (CallVal.scalar (Value.vBool false)), choices := none,
          restrictions := none } := by
  rfl

/-- C3 amended: constructing an `ArgumentItem` aborts exactly when the
declaration is a non-boolean required parameter with a default, a non-boolean
optional parameter without a default, or a boolean parameter declared as a
list; a boolean parameter declared as required does not abort (`required` is
silently reset to `False`). -/
theorem claim_C3_amended (s : ItemSpec) :
    (∃ e, ArgumentItem_init s = Except.error e) ↔
      ((s.ptype = PType.boolean ∧ s.is_list = true) ∨
       (s.ptype ≠ PType.boolean ∧ s.required = true ∧ s.default ≠ none) ∨
       (s.ptype ≠ PType.boolean ∧ s.required = false ∧ s.default = none)) := by
  obtain ⟨name, ptype, tags, required, description, is_list, default, choices,
    num_range, file_formats⟩ := s
  cases ptype <;> cases required <;> cases is_list <;> cases default <;>
    simp [ArgumentItem_init, pure, Except.pure, bind, Except.bind, throw, throwThe,
      MonadExceptOf.throw]

/-! ## Claim C10: restriction precedence instead of exclusion -/

/-- C10: a declaration carrying both a `num_range` and a `file_formats`
keyword does not fail (given an otherwise legal shape); the numeric-range
restriction is installed and the file-format allow-list is silently
ignored. -/
theorem claim_C10 (s : ItemSpec) (r : Option Int × Option Int) (formats : List String)
    (h1 : s.num_range = some r) (h2 : s.file_formats = some formats)
    (h3 : s.ptype = PType.boolean → s.is_list = false)
    (h4 : s.ptype ≠ PType.boolean → s.required = true → s.default = none)
    (h5 : s.ptype ≠ PType.boolean → s.required = false → s.default ≠ none) :
    ∃ it, ArgumentItem_init s = Except.ok it ∧
      it.restrictions = some (Restriction.numericRange s.name s.ptype r.1 r.2) := by
  obtain ⟨name, ptype, tags, required, description, is_list, default, choices,
    num_range, file_formats⟩ := s
  subst h1 h2
  cases ptype <;> cases required <;> cases is_list <;> cases default <;>
    simp_all [ArgumentItem_init, pure, Except.pure, bind, Except.bind, throw, throwThe,
      MonadExceptOf.throw]

/-- C10 witness: an int parameter declared with both `num_range = (0, 10)`
and `file_formats = ['txt']` constructs, with the numeric range installed. -/
theorem claim_C10_witness :
    ∃ it, ArgumentItem_init
        { name := "n", ptype := PType.int, default := some (CallVal.scalar (Value.vInt 0)),
          num_range := some (some 0, some 10), file_formats := some ["txt"] } =
        Except.ok it ∧
      it.restrictions = some (Restriction.numericRange "n" PType.int (some 0) (some 10)) :=
  claim_C10
    { name := "n", ptype := PType.int, default := some (CallVal.scalar (Value.vInt 0)),
      num_range := some (some 0, some 10), file_formats := some ["txt"] }
    (some 0, some 10) ["txt"] rfl rfl (by simp) (by simp) (by simp)

/-! ## Dictionary lemmas -/

/-- A key outside the key list is not found. -/
theorem lookup_eq_none_of_not_mem {od : OD} {k : String} (h : k ∉ odKeys od) :
    od.lookup k = none := by
  induction od with
  | nil => rfl
  | cons kv rest ih =>
    simp only [odKeys, List.map_cons, List.mem_cons, not_or] at h
    have hne : (k == kv.1) = false := beq_eq_false_iff_ne.mpr h.1
    simp [List.lookup, hne, ih h.2]

/-- Setting a fresh key appends the entry. -/
theorem odSet_fresh {od : OD} {k : String} (v : List PyVal) (h : k ∉ odKeys od) :
    odSet od k v = od ++ [(k, v)] := by
  simp [odSet, lookup_eq_none_of_not_mem h]

/-- `odKeys` distributes over concatenation. -/
theorem odKeys_append (od1 od2 : OD) : odKeys (od1 ++ od2) = odKeys od1 ++ odKeys od2 :=
  List.map_append _ od1 od2

/-- Setting a single fresh key into an accumulator appends the entry and its
key. -/
theorem odSet_fresh_append (ini : OD) (full : String) (v : List PyVal)
    (h : full ∉ odKeys ini) :
    odSet ini full v = ini ++ odSet [] full v ∧
    odKeys (odSet ini full v) = odKeys ini ++ [full] := by
  rw [odSet_fresh v h, odSet_fresh v (by simp [odKeys])]
  simp [odKeys_append, odKeys]

/-! ## Accumulator lemmas for `_register_parameter`

`register_parameter` threads the growing `ini_params` dictionary through the
traversal. When the names it is about to register are fresh (no collision
with the accumulator or among themselves), registering into `ini` appends
exactly what registering into the empty dictionary produces. -/

mutual

/-- Registering an element into an accumulator appends its fresh entries. -/
theorem register_parameter_append : ∀ (e : XmlTree) (b : String) (r : Bool) (ini : OD),
    (reg_keys e b r).Nodup → (∀ k ∈ reg_keys e b r, k ∉ odKeys ini) →
    register_parameter e b r ini = ini ++ register_parameter e b r [] ∧
    odKeys (register_parameter e b r ini) = odKeys ini ++ reg_keys e b r
  | XmlTree.elem tag attribs children, b, r, ini => by
    intro hnd hdisj
    simp only [register_parameter, reg_keys] at *
    by_cases h1 : tag = "ITEM"
    · simp only [if_pos h1] at *
      by_cases h2 : (attribs.lookup "type").getD "" = "boolean"
      · simp only [if_pos h2] at *
        by_cases h3 : (attribs.lookup "value").getD "" = "true"
        · simp only [if_pos h3] at *
          exact odSet_fresh_append ini _ _ (hdisj _ (List.mem_singleton_self _))
        · simp only [if_neg h3] at *
          simp
      · simp only [if_neg h2] at *
        exact odSet_fresh_append ini _ _ (hdisj _ (List.mem_singleton_self _))
    · simp only [if_neg h1] at *
      by_cases h4 : tag = "ITEMLIST"
      · simp only [if_pos h4] at *
        exact odSet_fresh_append ini _ _ (hdisj _ (List.mem_singleton_self _))
      · simp only [if_neg h4] at *
        by_cases h5 : tag = "NODE"
        · simp only [if_pos h5] at *
          exact register_children_append children _ ini hnd hdisj
        · simp only [if_neg h5] at *
          simp

/-- Registering a child list into an accumulator appends its fresh entries. -/
theorem register_children_append : ∀ (cs : List XmlTree) (b : String) (ini : OD),
    (reg_keys_children cs b).Nodup → (∀ k ∈ reg_keys_children cs b, k ∉ odKeys ini) →
    register_parameter_children cs b ini = ini ++ register_parameter_children cs b [] ∧
    odKeys (register_parameter_children cs b ini) = odKeys ini ++ reg_keys_children cs b
  | [], b, ini => by
    intro _ _
    simp [register_parameter_children, reg_keys_children]
  | c :: rest, b, ini => by
    intro hnd hdisj
    simp only [reg_keys_children, List.nodup_append] at hnd
    obtain ⟨hnd1, hnd2, hdj⟩ := hnd
    simp only [reg_keys_children, List.mem_append] at hdisj
    have h1 := register_parameter_append c b false ini hnd1
      (fun k hk => hdisj k (Or.inl hk))
    have h1e := register_parameter_append c b false [] hnd1 (by simp [odKeys])
    have h2 := register_children_append rest b (register_parameter c b false ini) hnd2
      (by
        intro k hk
        rw [h1.2]
        simp only [List.mem_append, not_or]
        exact ⟨fun hmem => hdisj k (Or.inr hk) hmem, fun hmem => hdj hmem hk⟩)
    have h2e := register_children_append rest b (register_parameter c b false []) hnd2
      (by
        intro k hk
        rw [h1e.2]
        simp only [odKeys, List.map_nil, List.nil_append]
        exact fun hmem => hdj hmem hk)
    constructor
    · simp only [register_parameter_children]
      rw [h2.1, h1.1, h2e.1, h1e.1]
      simp
    · simp only [register_parameter_children, reg_keys_children]
      rw [h2.2, h1.2, List.append_assoc]

end

/-- Registering the top-level children of the value tree into an accumulator
appends their fresh entries. -/
theorem register_top_append : ∀ (cs : List XmlTree) (ini : OD),
    (reg_keys_top cs).Nodup → (∀ k ∈ reg_keys_top cs, k ∉ odKeys ini) →
    register_top cs ini = ini ++ register_top cs [] ∧
    odKeys (register_top cs ini) = odKeys ini ++ reg_keys_top cs
  | [], ini => by
    intro _ _
    simp [register_top, reg_keys_top]
  | c :: rest, ini => by
    intro hnd hdisj
    simp only [reg_keys_top, List.nodup_append] at hnd
    obtain ⟨hnd1, hnd2, hdj⟩ := hnd
    simp only [reg_keys_top, List.mem_append] at hdisj
    have h1 := register_parameter_append c "-" true ini hnd1
      (fun k hk => hdisj k (Or.inl hk))
    have h1e := register_parameter_append c "-" true [] hnd1 (by simp [odKeys])
    have h2 := register_top_append rest (register_parameter c "-" true ini) hnd2
      (by
        intro k hk
        rw [h1.2]
        simp only [List.mem_append, not_or]
        exact ⟨fun hmem => hdisj k (Or.inr hk) hmem, fun hmem => hdj hmem hk⟩)
    have h2e := register_top_append rest (register_parameter c "-" true []) hnd2
      (by
        intro k hk
        rw [h1e.2]
        simp only [odKeys, List.map_nil, List.nil_append]
        exact fun hmem => hdj hmem hk)
    constructor
    · simp only [register_top]
      rw [h2.1, h1.1, h2e.1, h1e.1]
      simp
    · simp only [register_top, reg_keys_top]
      rw [h2.2, h1.2, List.append_assoc]

/-! ## Claim C8: document load semantics -/

mutual

/-- Deserializing one well-formed value-document node builds exactly the flat
table the specification describes. -/
theorem load_vtree_eq : ∀ (t : VTree) (b : String) (r : Bool),
    vtree_wf t = true → (reg_keys (vtree_xml t) b r).Nodup →
    register_parameter (vtree_xml t) b r [] = load_spec_table b r t ∧
    odKeys (load_spec_table b r t) = reg_keys (vtree_xml t) b r
  | VTree.scalarItem n ty v, b, r => by
    intro hwf _
    have hty : ¬ty = "boolean" := by simpa [vtree_wf] using hwf
    simp [vtree_xml, register_parameter, reg_keys, load_spec_table, List.lookup,
      hty, odSet, odKeys, full_lineage_name]
  | VTree.boolItem n v, b, r => by
    intro _ _
    by_cases hv : v = "true" <;>
      simp [vtree_xml, register_parameter, reg_keys, load_spec_table, List.lookup,
        hv, odSet, odKeys, full_lineage_name]
  | VTree.listItem n vs, b, r => by
    intro _ _
    simp [vtree_xml, register_parameter, reg_keys, load_spec_table, List.lookup,
      odSet, odKeys, full_lineage_name, XmlTree.attr, XmlTree.attribs, List.map_map,
      Function.comp]
  | VTree.group n cs, b, r => by
    intro hwf hnd
    have hwf' : vtree_wf_list cs = true := by simpa [vtree_wf] using hwf
    simp only [vtree_xml, register_parameter, reg_keys, load_spec_table,
      List.lookup] at hnd ⊢
    simpa [full_lineage_name] using
      load_vtree_list_eq cs (b ++ (if r then "" else ":") ++ n) hwf' (by simpa using hnd)

/-- Deserializing a list of well-formed value-document nodes builds the
concatenation of their tables. -/
theorem load_vtree_list_eq : ∀ (ts : List VTree) (b : String),
    vtree_wf_list ts = true → (reg_keys_children (vtree_xml_list ts) b).Nodup →
    register_parameter_children (vtree_xml_list ts) b [] = load_spec_table_list b ts ∧
    odKeys (load_spec_table_list b ts) = reg_keys_children (vtree_xml_list ts) b
  | [], b => by
    intro _ _
    simp [vtree_xml_list, register_parameter_children, load_spec_table_list,
      reg_keys_children, odKeys]
  | t :: ts, b => by
    intro hwf hnd
    have hwf1 : vtree_wf t = true := by
      simpa using (Bool.and_elim_left (by simpa [vtree_wf_list] using hwf))
    have hwf2 : vtree_wf_list ts = true := by
      simpa using (Bool.and_elim_right (by simpa [vtree_wf_list] using hwf))
    simp only [vtree_xml_list, reg_keys_children, List.nodup_append] at hnd
    obtain ⟨hnd1, hnd2, hdj⟩ := hnd
    have h1 := load_vtree_eq t b false hwf1 hnd1
    have h2 := load_vtree_list_eq ts b hwf2 hnd2
    have happ := register_children_append (vtree_xml_list ts) b
      (register_parameter (vtree_xml t) b false []) hnd2
      (by
        intro k hk
        rw [h1.1, h1.2]
        exact fun hmem => hdj hmem hk)
    constructor
    · simp only [vtree_xml_list, register_parameter_children, load_spec_table_list]
      rw [happ.1, h1.1, h2.1]
    · simp only [load_spec_table_list, reg_keys_children, vtree_xml_list]
      rw [odKeys_append, h1.2, h2.2]

end

/-- Deserializing the top-level children of a well-formed value tree builds
the concatenation of their tables, keyed from the dash prefix. -/
theorem load_vtree_top_eq : ∀ cs : List VTree,
    vtree_wf_list cs = true → (reg_keys_top (vtree_xml_list cs)).Nodup →
    register_top (vtree_xml_list cs) [] = load_spec_table_top cs ∧
    odKeys (load_spec_table_top cs) = reg_keys_top (vtree_xml_list cs)
  | [] => by
    intro _ _
    simp [vtree_xml_list, register_top, load_spec_table_top, reg_keys_top, odKeys]
  | t :: ts => by
    intro hwf hnd
    have hwf1 : vtree_wf t = true := by
      simpa using (Bool.and_elim_left (by simpa [vtree_wf_list] using hwf))
    have hwf2 : vtree_wf_list ts = true := by
      simpa using (Bool.and_elim_right (by simpa [vtree_wf_list] using hwf))
    simp only [vtree_xml_list, reg_keys_top, List.nodup_append] at hnd
    obtain ⟨hnd1, hnd2, hdj⟩ := hnd
    have h1 := load_vtree_eq t "-" true hwf1 hnd1
    have h2 := load_vtree_top_eq ts hwf2 hnd2
    have happ := register_top_append (vtree_xml_list ts)
      (register_parameter (vtree_xml t) "-" true []) hnd2
      (by
        intro k hk
        rw [h1.1, h1.2]
        exact fun hmem => hdj hmem hk)
    constructor
    · simp only [vtree_xml_list, register_top, load_spec_table_top]
      rw [happ.1, h1.1, h2.1]
    · simp only [load_spec_table_top, reg_keys_top, vtree_xml_list]
      rw [odKeys_append, h1.2, h2.2]

/-- C8: deserializing a parameter-value document builds a flat mapping from
each leaf's reconstructed lineage name to its values — a boolean item
contributes an entry only when its stored value is the string `'true'`, a
list item contributes the full ordered sequence of its element values, a
scalar item contributes a single-element sequence — and the same load
accepts both a document whose root is the value tree (`PARAMETERS`) directly
and one where that tree is nested inside a tool-metadata wrapper. The
document's top `NODE` may hold non-`NODE` leaves (such as the synthesized
version item) before the value tree's node; the wrapper may hold
non-`PARAMETERS` elements (manual, description, logs, ...) before the
parameter tree. -/
theorem claim_C8 (pa na1 na2 ta : List (String × String)) (root_tag : String)
    (cs : List VTree) (version_items tool_pre tool_post : List XmlTree)
    (h_items : ∀ e ∈ version_items, e.tag ≠ "NODE")
    (h_pre : ∀ e ∈ tool_pre, e.tag ≠ "PARAMETERS")
    (h_root : root_tag ≠ "PARAMETERS")
    (hwf : vtree_wf_list cs = true)
    (hnd : (reg_keys_top (vtree_xml_list cs)).Nodup) :
    read_ini (XmlTree.elem "PARAMETERS" pa
        [XmlTree.elem "NODE" na1
          (version_items ++ [XmlTree.elem "NODE" na2 (vtree_xml_list cs)])]) =
      some (load_spec_table_top cs, ini_command_line (load_spec_table_top cs)) ∧
    read_ini (XmlTree.elem root_tag ta
        (tool_pre ++ XmlTree.elem "PARAMETERS" pa
          [XmlTree.elem "NODE" na1
            (version_items ++ [XmlTree.elem "NODE" na2 (vtree_xml_list cs)])] :: tool_post)) =
      read_ini (XmlTree.elem "PARAMETERS" pa
        [XmlTree.elem "NODE" na1
          (version_items ++ [XmlTree.elem "NODE" na2 (vtree_xml_list cs)])]) := by
  have hfind_items :
      version_items.find? (fun c => c.tag == "NODE") = none :=
    List.find?_eq_none.mpr (fun e he => by simpa using h_items e he)
  have hfind_pre :
      tool_pre.find? (fun c => c.tag == "PARAMETERS") = none :=
    List.find?_eq_none.mpr (fun e he => by simpa using h_pre e he)
  have htop := load_vtree_top_eq cs hwf hnd
  simp only [XmlTree.tag] at hfind_items hfind_pre
  constructor
  · simp [read_ini, XmlTree.findChild, XmlTree.tag, XmlTree.children,
      List.find?_append, hfind_items, List.find?, htop.1]
  · simp [read_ini, XmlTree.findChild, XmlTree.tag, XmlTree.children,
      List.find?_append, hfind_items, hfind_pre, List.find?, h_root]

/-- C8 witness: the concrete document holding a scalar, a true and a false
boolean, a list and a nested group, loaded both bare and wrapped. -/
theorem claim_C8_witness :
    read_ini c8_example_doc =
      some (load_spec_table_top c8_example_trees,
        ini_command_line (load_spec_table_top c8_example_trees)) ∧
    read_ini c8_example_wrapped = read_ini c8_example_doc :=
  claim_C8 [] [("name", "tool")] [("name", "1")] [("name", "t")] "tool"
    c8_example_trees [c8_example_version_item] [XmlTree.elem "description" [] []] []
    (by
      intro e he
      simp only [List.mem_singleton] at he
      subst he
      simp [c8_example_version_item, XmlTree.tag])
    (by
      intro e he
      simp only [List.mem_singleton] at he
      subst he
      simp [XmlTree.tag])
    (by simp) (by decide) (by decide)

/-! ## Claim C1: round trip -/

/-- The serialized `type` attribute is `'boolean'` exactly for boolean
items. -/
theorem ptype_ctd_string_eq_boolean (p : PType) :
    ptype_ctd_string p = "boolean" ↔ p = PType.boolean := by
  cases p <;> simp [ptype_ctd_string]

mutual

/-- Serializing one well-typed tree node and deserializing it recovers
exactly the node's call-value table. -/
theorem roundtrip_atree : ∀ (t : ATree) (b : String) (r : Bool),
    atree_ok t = true → (reg_keys (atree_xml_node t) b r).Nodup →
    register_parameter (atree_xml_node t) b r [] = call_values_table b r t ∧
    odKeys (call_values_table b r t) = reg_keys (atree_xml_node t) b r
  | ATree.item it, b, r => by
    intro hok _
    simp only [atree_ok, item_round_trip_ok] at hok
    obtain ⟨nm, pt, tg, rq, ds, il, df, ch, rs, cv⟩ := it
    simp only at hok
    cases il with
    | true =>
      match cv, hok with
      | some (CallVal.list vs), hok =>
        have hpt : ¬pt = PType.boolean := by simpa using hok
        simp [atree_xml_node, item_xml_node, register_parameter, reg_keys,
          call_values_table, item_value_entry, List.lookup, odSet, odKeys,
          full_lineage_name, listIter, XmlTree.attr, XmlTree.attribs,
          List.map_map, Function.comp,
          (ptype_ctd_string_eq_boolean pt).ne.mpr hpt]
    | false =>
      match cv, hok with
      | some (CallVal.scalar v), hok =>
        by_cases hpt : pt = PType.boolean
        · subst hpt
          match v, hok with
          | Value.vBool bv, _ =>
            cases bv <;>
              simp [atree_xml_node, item_xml_node, register_parameter, reg_keys,
                call_values_table, item_value_entry, List.lookup, odSet, odKeys,
                full_lineage_name, pyTruthy, ptype_ctd_string]
        · have hb : ¬ptype_ctd_string pt = "boolean" := by
            simpa [ptype_ctd_string_eq_boolean] using hpt
          cases v <;>
            simp [atree_xml_node, item_xml_node, register_parameter, reg_keys,
              call_values_table, item_value_entry, List.lookup, odSet, odKeys,
              full_lineage_name, pyStrCV, hb, hpt]
  | ATree.group n d cs, b, r => by
    intro hok hnd
    have hok' : atree_ok_list cs = true := by simpa [atree_ok] using hok
    simp only [atree_xml_node, register_parameter, reg_keys, call_values_table,
      List.lookup] at hnd ⊢
    simpa [full_lineage_name] using
      roundtrip_atree_list cs (b ++ (if r then "" else ":") ++ n) hok' (by simpa using hnd)

/-- Serializing and deserializing a list of well-typed tree nodes recovers
the concatenation of their call-value tables. -/
theorem roundtrip_atree_list : ∀ (ts : List ATree) (b : String),
    atree_ok_list ts = true → (reg_keys_children (atree_xml_nodes ts) b).Nodup →
    register_parameter_children (atree_xml_nodes ts) b [] = call_values_table_list b ts ∧
    odKeys (call_values_table_list b ts) = reg_keys_children (atree_xml_nodes ts) b
  | [], b => by
    intro _ _
    simp [atree_xml_nodes, register_parameter_children, call_values_table_list,
      reg_keys_children, odKeys]
  | t :: ts, b => by
    intro hok hnd
    have hok1 : atree_ok t = true := by
      simpa using (Bool.and_elim_left (by simpa [atree_ok_list] using hok))
    have hok2 : atree_ok_list ts = true := by
      simpa using (Bool.and_elim_right (by simpa [atree_ok_list] using hok))
    simp only [atree_xml_nodes, reg_keys_children, List.nodup_append] at hnd
    obtain ⟨hnd1, hnd2, hdj⟩ := hnd
    have h1 := roundtrip_atree t b false hok1 hnd1
    have h2 := roundtrip_atree_list ts b hok2 hnd2
    have happ := register_children_append (atree_xml_nodes ts) b
      (register_parameter (atree_xml_node t) b false []) hnd2
      (by
        intro k hk
        rw [h1.1, h1.2]
        exact fun hmem => hdj hmem hk)
    constructor
    · simp only [atree_xml_nodes, register_parameter_children, call_values_table_list]
      rw [happ.1, h1.1, h2.1]
    · simp only [call_values_table_list, reg_keys_children, atree_xml_nodes]
      rw [odKeys_append, h1.2, h2.2]

end

/-- Serializing and deserializing the root group's children recovers the
concatenation of their call-value tables, keyed from the dash prefix. -/
theorem roundtrip_atree_top : ∀ ts : List ATree,
    atree_ok_list ts = true → (reg_keys_top (atree_xml_nodes ts)).Nodup →
    register_top (atree_xml_nodes ts) [] = call_values_table_top ts ∧
    odKeys (call_values_table_top ts) = reg_keys_top (atree_xml_nodes ts)
  | [] => by
    intro _ _
    simp [atree_xml_nodes, register_top, call_values_table_top, reg_keys_top, odKeys]
  | t :: ts => by
    intro hok hnd
    have hok1 : atree_ok t = true := by
      simpa using (Bool.and_elim_left (by simpa [atree_ok_list] using hok))
    have hok2 : atree_ok_list ts = true := by
      simpa using (Bool.and_elim_right (by simpa [atree_ok_list] using hok))
    simp only [atree_xml_nodes, reg_keys_top, List.nodup_append] at hnd
    obtain ⟨hnd1, hnd2, hdj⟩ := hnd
    have h1 := roundtrip_atree t "-" true hok1 hnd1
    have h2 := roundtrip_atree_top ts hok2 hnd2
    have happ := register_top_append (atree_xml_nodes ts)
      (register_parameter (atree_xml_node t) "-" true []) hnd2
      (by
        intro k hk
        rw [h1.1, h1.2]
        exact fun hmem => hdj hmem hk)
    constructor
    · simp only [atree_xml_nodes, register_top, call_values_table_top]
      rw [happ.1, h1.1, h2.1]
    · simp only [call_values_table_top, reg_keys_top, atree_xml_nodes]
      rw [odKeys_append, h1.2, h2.2]

/-- C1: for every declared parameter tree whose items hold well-shaped call
values and whose flag names are pairwise distinct, deserializing the document
produced by serializing the tree (`read_ini` applied to the
`generate_ctd_tree` output) reconstructs the flat name-to-values table of the
call values: lists keep their element order and a boolean contributes an
entry iff its value is true. -/
theorem claim_C1 (name version : String) (optional_attribs : List (String × String))
    (cs : List ATree)
    (hok : atree_ok_list cs = true)
    (hnd : (reg_keys_top (atree_xml_nodes cs)).Nodup) :
    read_ini (generate_ctd_tree name version optional_attribs cs) =
      some (call_values_table_top cs, ini_command_line (call_values_table_top cs)) := by
  have htop := roundtrip_atree_top cs hok hnd
  have hfind :
      (((["manual", "description", "executableName", "executablePath"].filter
          (fun oo => (optional_attribs.lookup oo).isSome)).map
          (fun oo => XmlTree.elem oo [] [])).find?
        (fun c => c.tag == "PARAMETERS")) = none := by
    refine List.find?_eq_none.mpr ?_
    intro e he
    simp only [List.mem_map] at he
    obtain ⟨oo, hoo, rfl⟩ := he
    have hmem := List.mem_of_mem_filter hoo
    fin_cases hmem <;> simp [XmlTree.tag]
  simp only [XmlTree.tag] at hfind
  simp [generate_ctd_tree, read_ini, XmlTree.findChild, XmlTree.tag,
    XmlTree.children, List.find?_append, hfind, List.find?, htop.1]

/-- C1 witness: the concrete tree round-trips through serialization and
deserialization to its call-value table. -/
theorem claim_C1_witness :
    read_ini (generate_ctd_tree "tool" "1.0" [] c1_example_trees) =
      some (call_values_table_top c1_example_trees,
        ini_command_line (call_values_table_top c1_example_trees)) :=
  claim_C1 "tool" "1.0" [] c1_example_trees (by decide) (by decide)

/-! ## Claim C2: precedence of the literal command line over the loaded
document -/

/-- Looking up a key after replacing it finds the new value iff the key was
present. -/
theorem lookup_map_replace (pa : ParsedArgs) (k : String) (v : List String) :
    (pa.map (fun kv => if kv.1 = k then (k, v) else kv)).lookup k =
      if (pa.lookup k).isSome then some v else none := by
  induction pa with
  | nil => rfl
  | cons kv rest ih =>
    obtain ⟨a, b⟩ := kv
    by_cases h : a = k
    · subst h
      have h1 : (((a, b) :: rest).map (fun kv => if kv.1 = a then (a, v) else kv)) =
          (a, v) :: rest.map (fun kv => if kv.1 = a then (a, v) else kv) := by
        simp
      rw [h1]
      simp [List.lookup]
    · have hne : (k == a) = false := beq_eq_false_iff_ne.mpr (Ne.symm h)
      have h1 : (((a, b) :: rest).map (fun kv => if kv.1 = k then (k, v) else kv)) =
          (a, b) :: rest.map (fun kv => if kv.1 = k then (k, v) else kv) := by
        simp [h]
      have h2 : ∀ l : List (String × List String),
          List.lookup k ((a, b) :: l) = List.lookup k l := fun l => by
        simp [List.lookup, hne]
      rw [h1, h2, h2, ih]

/-- Appending a fresh entry makes its key found. -/
theorem lookup_append_single (pa : ParsedArgs) (k : String) (v : List String)
    (h : pa.lookup k = none) : (pa ++ [(k, v)]).lookup k = some v := by
  induction pa with
  | nil => simp [List.lookup]
  | cons kv rest ih =>
    obtain ⟨a, b⟩ := kv
    by_cases hk : k = a
    · subst hk
      simp [List.lookup] at h
    · have hne : (k == a) = false := beq_eq_false_iff_ne.mpr hk
      simp only [List.lookup, hne] at h
      simp only [List.cons_append, List.lookup, hne]
      exact ih h

/-- After `paSet`, the key holds exactly the new value. -/
theorem lookup_paSet (pa : ParsedArgs) (k : String) (v : List String) :
    (paSet pa k v).lookup k = some v := by
  by_cases h : (pa.lookup k).isSome
  · simp [paSet, h, lookup_map_replace]
  · simp only [paSet, h, Bool.false_eq_true, if_false]
    exact lookup_append_single pa k v (Option.not_isSome_iff_eq_none.mp h)

/-- After `paAppend`, the key holds its old value with the token appended. -/
theorem lookup_paAppend (pa : ParsedArgs) (k : String) (v : String) :
    (paAppend pa k v).lookup k = (pa.lookup k).map (fun l => l ++ [v]) := by
  induction pa with
  | nil => rfl
  | cons kv rest ih =>
    obtain ⟨a, b⟩ := kv
    by_cases h : a = k
    · subst h
      have h1 : paAppend ((a, b) :: rest) a v = (a, b ++ [v]) :: paAppend rest a v := by
        simp [paAppend]
      rw [h1]
      simp [List.lookup]
    · have hne : (k == a) = false := beq_eq_false_iff_ne.mpr (Ne.symm h)
      have h1 : paAppend ((a, b) :: rest) k v = (a, b) :: paAppend rest k v := by
        simp [paAppend, h]
      rw [h1]
      simp [List.lookup, hne, ih]

/-- Folding `paAppend` over a value list appends the whole list to the key's
entry. -/
theorem lookup_foldl_paAppend (f : String) : ∀ (vs : List String) (acc : ParsedArgs),
    ((vs.foldl (fun a v => paAppend a f v) acc).lookup f) =
      (acc.lookup f).map (fun l => l ++ vs)
  | [], acc => by simp
  | v :: vs, acc => by
    rw [List.foldl_cons, lookup_foldl_paAppend f vs (paAppend acc f v), lookup_paAppend]
    cases acc.lookup f <;> simp

/-- While only unrecognized (value) tokens arrive, the parser keeps appending
them to the current flag's entry. -/
theorem parse_go_values (flags : List String) (f : String) :
    ∀ (vs : List String) (acc : ParsedArgs), (∀ v ∈ vs, v ∉ flags) →
    parse_tokens_go flags (vs.map PyVal.pstr) (some f) acc =
      vs.foldl (fun a v => paAppend a f v) acc
  | [], acc => by
    intro _
    simp [parse_tokens_go]
  | v :: vs, acc => by
    intro hvs
    have hv : v ∉ flags := hvs v (List.mem_cons_self v vs)
    rw [List.map_cons, List.foldl_cons]
    simp only [parse_tokens_go]
    rw [if_neg hv]
    exact parse_go_values flags f vs (paAppend acc f v)
      (fun w hw => hvs w (List.mem_cons_of_mem v hw))

/-- A trailing occurrence of a recognized flag followed by value tokens wins:
whatever tokens came before, the flag's parsed entry is exactly those
values. -/
theorem parse_go_last (flags : List String) (f : String) (vs : List String)
    (hf : f ∈ flags) (hvs : ∀ v ∈ vs, v ∉ flags) :
    ∀ (ts : List PyVal) (cur : Option String) (acc : ParsedArgs),
    ((parse_tokens_go flags (ts ++ PyVal.pstr f :: vs.map PyVal.pstr) cur acc).lookup f) =
      some vs
  | [], cur, acc => by
    rw [List.nil_append]
    simp only [parse_tokens_go]
    rw [if_pos hf, parse_go_values flags f vs (paSet acc f []) hvs,
      lookup_foldl_paAppend, lookup_paSet]
    simp
  | PyVal.ptrue :: ts, cur, acc => by
    rw [List.cons_append]
    simp only [parse_tokens_go]
    exact parse_go_last flags f vs hf hvs ts cur acc
  | PyVal.pstr t :: ts, cur, acc => by
    rw [List.cons_append]
    simp only [parse_tokens_go]
    by_cases ht : t ∈ flags
    · rw [if_pos ht]
      exact parse_go_last flags f vs hf hvs ts (some t) (paSet acc t [])
    · rw [if_neg ht]
      cases cur with
      | some g => exact parse_go_last flags f vs hf hvs ts (some g) (paAppend acc g t)
      | none => exact parse_go_last flags f vs hf hvs ts none acc

/-- C2: in `parse_args` the final token list is the token list synthesized
from the loaded document followed by the remaining literal command-line
tokens, and a later token for the same flag overrides an earlier one: when
the literal command line ends with a flag and its value tokens, the parsed
entry for that flag is exactly those literal values, whatever the loaded
document assigned to it. -/
theorem claim_C2 (flags : List String) (doc : XmlTree) (tbl : OD) (toks : List PyVal)
    (pre : List PyVal) (f : String) (vs : List String)
    (h_ini : read_ini doc = some (tbl, toks))
    (hf : f ∈ flags) (hvs : ∀ v ∈ vs, v ∉ flags) :
    parse_args flags (some doc) (pre ++ PyVal.pstr f :: vs.map PyVal.pstr) =
      some (parse_tokens flags (toks ++ (pre ++ PyVal.pstr f :: vs.map PyVal.pstr))) ∧
    ∀ pa, parse_args flags (some doc) (pre ++ PyVal.pstr f :: vs.map PyVal.pstr) = some pa →
      pa.lookup f = some vs := by
  constructor
  · simp [parse_args, h_ini]
  · intro pa hpa
    simp only [parse_args, h_ini, Option.map_some] at hpa
    obtain rfl := (Option.some_injective _ hpa).symm
    simp only [parse_tokens]
    rw [← List.append_assoc]
    exact parse_go_last flags f vs hf hvs (toks ++ pre) none []

/-- C2 witness: a document assigning `p = 1` loaded through `--input_ctd`
and a literal command line reassigning `p = 2`: the parsed (stored) value of
`p` is `2`. -/
theorem claim_C2_witness :
    parse_args ["-p"] (some c2_example_doc)
        ([] ++ PyVal.pstr "-p" :: (["2"].map PyVal.pstr)) =
      some (parse_tokens ["-p"] ([PyVal.pstr "-p", PyVal.pstr "1"] ++
        ([] ++ PyVal.pstr "-p" :: (["2"].map PyVal.pstr)))) ∧
    ∀ pa, parse_args ["-p"] (some c2_example_doc)
        ([] ++ PyVal.pstr "-p" :: (["2"].map PyVal.pstr)) = some pa →
      pa.lookup "-p" = some ["2"] :=
  claim_C2 ["-p"] c2_example_doc [("-p", [PyVal.pstr "1"])]
    [PyVal.pstr "-p", PyVal.pstr "1"] [] "-p" ["2"]
    (by decide) (by decide) (by decide)

end CTDopts
